import Mathlib

/-!
Shallow embedding of `backend/ai_generator.py` (class `AIGenerator`): the
agent-loop orchestrator that drives up to `MAX_ROUNDS` tool-calling rounds
against an LLM client and a tool manager, plus its helpers
`_execute_tools_for_round` and `_extract_text_content`.

The LLM client (`self.client.messages.create`) is modelled as an oracle
`Nat → Except String Response` giving, for the n-th call issued during one
invocation of `generate_response`, either a response or a raised exception
(carried as the exception message).  The tool manager's `execute_tool` is
modelled as `String → ToolInput → Except String String`: `Except.error e`
stands for a raised exception with message `str(e) = e`.

The embedding instruments the run with a trace: the final outcome, the list
of API requests issued (in order), and the list of tool dispatches made (in
order).  The request/dispatch logs are pure observations; the control flow
and every data value mirror the Python source line by line, including
Python truthiness of `tools` (`if tools:` — `None` and `[]` both falsy),
`conversation_history` (`None` and `""` falsy) and `tool_manager`
(`None` falsy, any manager object truthy).
-/

namespace AIGen

/-- `AIGenerator.SYSTEM_PROMPT` from `ai_generator.py`, verbatim. -/
def SYSTEM_PROMPT : String :=
  " You are an AI assistant specialized in course materials and educational content with access to tools for searching course information and retrieving course outlines.\n\nTool Usage:\n- **search_course_content**: Use for questions about specific course content or detailed educational materials\n- **get_course_outline**: Use for questions about course structure, outlines, or lesson listings\n- **Sequential tool calling**: You can make up to 2 tool calls total to gather information\n  - Use the first tool call to get initial information\n  - After reviewing results, decide if you need one more tool call\n  - Use the second tool call if you need additional or related information\n  - After gathering information, provide a complete synthesized answer\n- Synthesize tool results into accurate, fact-based responses\n- If tool yields no results, state this clearly without offering alternatives\n\nMulti-step query examples:\n- To compare content from two lessons: first get one lesson, then get the other\n- To find a course discussing the same topic as a specific lesson: first get that lesson's content/outline, then search for courses with similar topics\n- After each tool result, evaluate: do I have enough information to answer completely?\n\nWhen answering outline-related queries:\n- Always include the course title\n- Always include the course link\n- List all lessons with their lesson number and lesson title\n- Format clearly and concisely\n\nResponse Protocol:\n- **General knowledge questions**: Answer using existing knowledge without using tools\n- **Course content questions**: Use search_course_content tool first, then answer\n- **Course outline questions**: Use get_course_outline tool first, then answer\n- **No meta-commentary**:\n - Provide direct answers only — no reasoning process, tool usage explanations, or question-type analysis\n - Do not mention \"based on the search results\" or \"based on the tool results\"\n\n\nAll responses must be:\n1. **Brief, Concise and focused** - Get to the point quickly\n2. **Educational** - Maintain instructional value\n3. **Clear** - Use accessible language\n4. **Example-supported** - Include relevant examples when they aid understanding\nProvide only the direct answer to what was asked.\n"

/-- `MAX_ROUNDS = 2` from the body of `generate_response`. -/
def MAX_ROUNDS : Nat := 2

/-- A tool invocation's structured input (`content_block.input`, a JSON
object splatted as keyword arguments); its internals are opaque to the
orchestrator, so key/value pairs of strings suffice. -/
abbrev ToolInput := List (String × String)

/-- One content block of an LLM response: `{type: "text", text}`,
`{type: "tool_use", id, name, input}`, or a block of any other type
(which the orchestrator ignores). -/
inductive ContentBlock where
  | text (text : String)
  | toolUse (id : String) (name : String) (input : ToolInput)
  | other (btype : String)
deriving DecidableEq

/-- `content_block.type` as the Python code reads it.  For an `other`
block, `btype` is its (non-`"text"`, non-`"tool_use"`) type string. -/
def ContentBlock.type : ContentBlock → String
  | .text _ => "text"
  | .toolUse _ _ _ => "tool_use"
  | .other t => t

/-- An LLM response: `{stop_reason, content}`. -/
structure Response where
  stop_reason : String
  content : List ContentBlock
deriving DecidableEq

/-- A tool-result record as built by `_execute_tools_for_round`:
`{type: "tool_result", tool_use_id, content, is_error?}`.  The Python
success record carries no `is_error` key; key-absent is modelled as
`is_error = false`. -/
structure ToolResult where
  type : String
  tool_use_id : String
  content : String
  is_error : Bool
deriving DecidableEq

/-- The content of one message on the `messages` list: the initial query is
a plain string, an assistant turn carries the response's raw content
blocks, and a tool-results turn carries the round's result records. -/
inductive MessageContent where
  | str (s : String)
  | blocks (bs : List ContentBlock)
  | results (rs : List ToolResult)
deriving DecidableEq

/-- One `{"role": ..., "content": ...}` message. -/
structure Message where
  role : String
  content : MessageContent
deriving DecidableEq

/-- A tool schema descriptor as advertised to the LLM; opaque to the
orchestrator, which only forwards it. -/
abbrev ToolSchema := String

/-- The keyword arguments of one `client.messages.create` call, after
merging `self.base_params`.  `tools`/`tool_choice` are `none` when the
corresponding key is absent from `api_params`. -/
structure ApiRequest where
  model : String
  temperature : Nat
  max_tokens : Nat
  messages : List Message
  system : String
  tools : Option (List ToolSchema)
  tool_choice : Option String
deriving DecidableEq

/-- The tool manager's `execute_tool(name, **input)`: `Except.error e`
models a raised exception whose `str(e)` is `e`. -/
abbrev ToolManager := String → ToolInput → Except String String

/-- The LLM client: the outcome of the n-th `client.messages.create` call
issued during one `generate_response` invocation (`Except.error e` models a
raised API exception with message `e`). -/
abbrev Client := Nat → Except String Response

/-- One dispatched tool call (`tool_manager.execute_tool(name, **input)`). -/
structure ToolCall where
  name : String
  input : ToolInput
deriving DecidableEq

/-- Python truthiness of the `tools: list | None` parameter
(`if tools:`): `None` and the empty list are falsy. -/
def toolsTruthy : Option (List ToolSchema) → Bool
  | none => false
  | some l => !l.isEmpty

/-- Python truthiness of an optional string (`if conversation_history:`):
`None` and `""` are falsy. -/
def strTruthy : Option String → Bool
  | none => false
  | some s => !s.isEmpty

/-- The loop body of `_extract_text_content`: return the `text` of the
first block of type `"text"`, or `""` when there is none. -/
def extractTextList : List ContentBlock → String
  | [] => ""
  | ContentBlock.text t :: _ => t
  | _ :: rest => extractTextList rest

/-- `AIGenerator._extract_text_content(response)`. -/
def _extract_text_content (response : Response) : String :=
  extractTextList response.content

/-- The record appended for one `tool_use` block: the `try` branch on a
normal return, the `except` branch on an exception. -/
def toolResultFor (m : ToolManager) (id name : String) (input : ToolInput) :
    ToolResult :=
  match m name input with
  | Except.ok result =>
      { type := "tool_result", tool_use_id := id, content := result,
        is_error := false }
  | Except.error e =>
      { type := "tool_result", tool_use_id := id,
        content := "Error executing tool: " ++ e, is_error := true }

/-- The `for content_block in response.content` loop of
`_execute_tools_for_round`: one record per `tool_use` block, in order. -/
def executeToolsList (m : ToolManager) : List ContentBlock → List ToolResult
  | [] => []
  | ContentBlock.toolUse id name input :: rest =>
      toolResultFor m id name input :: executeToolsList m rest
  | _ :: rest => executeToolsList m rest

/-- `AIGenerator._execute_tools_for_round(response, tool_manager)`. -/
def _execute_tools_for_round (response : Response) (m : ToolManager) :
    List ToolResult :=
  executeToolsList m response.content

/-- The dispatches `_execute_tools_for_round` makes, in order: exactly one
`execute_tool(name, **input)` call per `tool_use` block (both the `try` and
the `except` branch dispatch first). -/
def dispatchesList : List ContentBlock → List ToolCall
  | [] => []
  | ContentBlock.toolUse _ name input :: rest =>
      ⟨name, input⟩ :: dispatchesList rest
  | _ :: rest => dispatchesList rest

/-- The dispatch log of one tool-executing round on `response`. -/
def dispatchesForRound (response : Response) : List ToolCall :=
  dispatchesList response.content

/-- The trace of one `generate_response` invocation: its outcome
(`Except.error e` when an LLM-call exception propagates out), the API
requests issued in order, and the tool dispatches made in order. -/
structure RunTrace where
  result : Except String String
  requests : List ApiRequest
  dispatches : List ToolCall

/-- An in-loop `api_params`: `{**base_params, messages, system}` plus, when
`tools` is truthy, `tools` and `tool_choice = {"type": "auto"}`. -/
def mkLoopRequest (model : String) (messages : List Message)
    (system_content : String) (tools : Option (List ToolSchema)) :
    ApiRequest :=
  if toolsTruthy tools then
    { model := model, temperature := 0, max_tokens := 800,
      messages := messages, system := system_content,
      tools := tools, tool_choice := some "auto" }
  else
    { model := model, temperature := 0, max_tokens := 800,
      messages := messages, system := system_content,
      tools := none, tool_choice := none }

/-- The forced `final_params`: `{**base_params, messages, system}` with no
`tools` and no `tool_choice` key. -/
def mkFinalRequest (model : String) (messages : List Message)
    (system_content : String) : ApiRequest :=
  { model := model, temperature := 0, max_tokens := 800,
    messages := messages, system := system_content,
    tools := none, tool_choice := none }

/-- The agentic loop of `generate_response`, from the state where `fuel`
rounds of `for round_num in range(MAX_ROUNDS)` remain, `callIdx` LLM calls
were already issued, and `messages` is the accumulated message list.
`fuel = 0` is the forced final call after the loop. -/
def runRounds (client : Client) (model : String)
    (tools : Option (List ToolSchema)) (tool_manager : Option ToolManager)
    (system_content : String) :
    Nat → Nat → List Message → RunTrace
  | 0, callIdx, messages =>
    let req := mkFinalRequest model messages system_content
    match client callIdx with
    | Except.error e => ⟨Except.error e, [req], []⟩
    | Except.ok final_response =>
        ⟨Except.ok (_extract_text_content final_response), [req], []⟩
  | fuel + 1, callIdx, messages =>
    let req := mkLoopRequest model messages system_content tools
    match client callIdx with
    | Except.error e => ⟨Except.error e, [req], []⟩
    | Except.ok response =>
      if response.stop_reason != "tool_use" then
        ⟨Except.ok (_extract_text_content response), [req], []⟩
      else
        match tool_manager with
        | none => ⟨Except.ok (_extract_text_content response), [req], []⟩
        | some m =>
          let tool_results := _execute_tools_for_round response m
          let messages2 := messages ++
            [⟨"assistant", MessageContent.blocks response.content⟩,
             ⟨"user", MessageContent.results tool_results⟩]
          let t := runRounds client model tools tool_manager system_content
            fuel (callIdx + 1) messages2
          ⟨t.result, req :: t.requests,
           dispatchesForRound response ++ t.dispatches⟩

/-- The `system_content` conditional expression of `generate_response`:
the history block is appended only when `conversation_history` is truthy
(non-`None` and non-empty). -/
def buildSystemContent (conversation_history : Option String) : String :=
  if strTruthy conversation_history then
    SYSTEM_PROMPT ++ "\n\nPrevious conversation:\n" ++
      conversation_history.getD ""
  else
    SYSTEM_PROMPT

/-- `AIGenerator.generate_response(query, conversation_history, tools,
tool_manager)`, instrumented with the request and dispatch logs. -/
def generate_response (client : Client) (model : String) (query : String)
    (conversation_history : Option String)
    (tools : Option (List ToolSchema))
    (tool_manager : Option ToolManager) : RunTrace :=
  runRounds client model tools tool_manager
    (buildSystemContent conversation_history)
    MAX_ROUNDS 0 [⟨"user", MessageContent.str query⟩]

/-- The `id` of a `tool_use` block, `none` for any other block. -/
def blockToolUseId : ContentBlock → Option String
  | ContentBlock.toolUse id _ _ => some id
  | _ => none

/-- The dispatch a `tool_use` block causes, `none` for any other block. -/
def blockToolCall : ContentBlock → Option ToolCall
  | ContentBlock.toolUse _ name input => some ⟨name, input⟩
  | _ => none

/-- The two messages one tool-executing round appends: the assistant's raw
content, then a user message carrying the round's tool results. -/
def roundPair (m : ToolManager) (r : Response) : List Message :=
  [⟨"assistant", MessageContent.blocks r.content⟩,
   ⟨"user", MessageContent.results (_execute_tools_for_round r m)⟩]

/-- The messages appended by a sequence of tool-executing rounds whose
responses were `rs`, in order. -/
def roundPairs (m : ToolManager) : List Response → List Message
  | [] => []
  | r :: rs => roundPair m r ++ roundPairs m rs

/-! ### Step lemmas: one unfolding of `runRounds` per control-flow branch -/

theorem runRounds_zero_err {client : Client} {model : String}
    {tools : Option (List ToolSchema)} {tm : Option ToolManager}
    {sys : String} {callIdx : Nat} {messages : List Message} {e : String}
    (h : client callIdx = Except.error e) :
    runRounds client model tools tm sys 0 callIdx messages =
      ⟨Except.error e, [mkFinalRequest model messages sys], []⟩ := by
  simp [runRounds, h]

theorem runRounds_zero_ok {client : Client} {model : String}
    {tools : Option (List ToolSchema)} {tm : Option ToolManager}
    {sys : String} {callIdx : Nat} {messages : List Message} {r : Response}
    (h : client callIdx = Except.ok r) :
    runRounds client model tools tm sys 0 callIdx messages =
      ⟨Except.ok (_extract_text_content r),
       [mkFinalRequest model messages sys], []⟩ := by
  simp [runRounds, h]

theorem runRounds_succ_err {client : Client} {model : String}
    {tools : Option (List ToolSchema)} {tm : Option ToolManager}
    {sys : String} {fuel callIdx : Nat} {messages : List Message}
    {e : String} (h : client callIdx = Except.error e) :
    runRounds client model tools tm sys (fuel + 1) callIdx messages =
      ⟨Except.error e, [mkLoopRequest model messages sys tools], []⟩ := by
  simp [runRounds, h]

theorem runRounds_succ_done {client : Client} {model : String}
    {tools : Option (List ToolSchema)} {tm : Option ToolManager}
    {sys : String} {fuel callIdx : Nat} {messages : List Message}
    {r : Response} (h : client callIdx = Except.ok r)
    (hs : r.stop_reason ≠ "tool_use") :
    runRounds client model tools tm sys (fuel + 1) callIdx messages =
      ⟨Except.ok (_extract_text_content r),
       [mkLoopRequest model messages sys tools], []⟩ := by
  simp [runRounds, h, hs]

theorem runRounds_succ_nomgr {client : Client} {model : String}
    {tools : Option (List ToolSchema)} {sys : String} {fuel callIdx : Nat}
    {messages : List Message} {r : Response}
    (h : client callIdx = Except.ok r)
    (hs : r.stop_reason = "tool_use") :
    runRounds client model tools none sys (fuel + 1) callIdx messages =
      ⟨Except.ok (_extract_text_content r),
       [mkLoopRequest model messages sys tools], []⟩ := by
  simp [runRounds, h, hs]

theorem runRounds_succ_tools {client : Client} {model : String}
    {tools : Option (List ToolSchema)} {m : ToolManager} {sys : String}
    {fuel callIdx : Nat} {messages : List Message} {r : Response}
    (h : client callIdx = Except.ok r)
    (hs : r.stop_reason = "tool_use") :
    runRounds client model tools (some m) sys (fuel + 1) callIdx messages =
      let t := runRounds client model tools (some m) sys fuel (callIdx + 1)
        (messages ++ roundPair m r)
      ⟨t.result, mkLoopRequest model messages sys tools :: t.requests,
       dispatchesForRound r ++ t.dispatches⟩ := by
  simp [runRounds, h, hs, roundPair]

/-! ### Invariants of the loop -/

/-- From any loop state with `fuel` rounds remaining, at most `fuel + 1`
LLM calls are issued. -/
theorem runRounds_requests_length_le (client : Client) (model : String)
    (tools : Option (List ToolSchema)) (tm : Option ToolManager)
    (sys : String) :
    ∀ fuel callIdx messages,
      (runRounds client model tools tm sys fuel callIdx
        messages).requests.length ≤ fuel + 1 := by
  intro fuel
  induction fuel with
  | zero =>
    intro callIdx messages
    cases h : client callIdx with
    | error e => rw [runRounds_zero_err h]; simp
    | ok r => rw [runRounds_zero_ok h]; simp
  | succ n ih =>
    intro callIdx messages
    cases h : client callIdx with
    | error e => rw [runRounds_succ_err h]; simp
    | ok r =>
      by_cases hs : r.stop_reason = "tool_use"
      · cases tm with
        | none => rw [runRounds_succ_nomgr h hs]; simp
        | some m =>
          rw [runRounds_succ_tools h hs]
          simpa using Nat.succ_le_succ (ih (callIdx + 1) (messages ++ roundPair m r))
      · rw [runRounds_succ_done h hs]; simp

/-- Every request issued from any loop state carries the `system_content`
the loop was entered with. -/
theorem runRounds_system_const (client : Client) (model : String)
    (tools : Option (List ToolSchema)) (tm : Option ToolManager)
    (sys : String) :
    ∀ fuel callIdx messages req,
      req ∈ (runRounds client model tools tm sys fuel callIdx
        messages).requests → req.system = sys := by
  intro fuel
  induction fuel with
  | zero =>
    intro callIdx messages req hmem
    cases h : client callIdx with
    | error e =>
      rw [runRounds_zero_err h] at hmem
      simp at hmem
      simp [hmem, mkFinalRequest]
    | ok r =>
      rw [runRounds_zero_ok h] at hmem
      simp at hmem
      simp [hmem, mkFinalRequest]
  | succ n ih =>
    intro callIdx messages req hmem
    have hloop : (mkLoopRequest model messages sys tools).system = sys := by
      unfold mkLoopRequest; split <;> rfl
    cases h : client callIdx with
    | error e =>
      rw [runRounds_succ_err h] at hmem
      simp at hmem
      rw [hmem]; exact hloop
    | ok r =>
      by_cases hs : r.stop_reason = "tool_use"
      · cases tm with
        | none =>
          rw [runRounds_succ_nomgr h hs] at hmem
          simp at hmem
          rw [hmem]; exact hloop
        | some m =>
          rw [runRounds_succ_tools h hs] at hmem
          simp at hmem
          rcases hmem with hmem | hmem
          · rw [hmem]; exact hloop
          · exact ih (callIdx + 1) (messages ++ roundPair m r) req hmem
      · rw [runRounds_succ_done h hs] at hmem
        simp at hmem
        rw [hmem]; exact hloop

/-- When the client itself never fails, the loop always terminates with a
textual answer (tool-execution failures never abort it). -/
theorem runRounds_total (client : Client) (model : String)
    (tools : Option (List ToolSchema)) (tm : Option ToolManager)
    (sys : String) (hcl : ∀ k, ∃ r, client k = Except.ok r) :
    ∀ fuel callIdx messages, ∃ s,
      (runRounds client model tools tm sys fuel callIdx
        messages).result = Except.ok s := by
  intro fuel
  induction fuel with
  | zero =>
    intro callIdx messages
    obtain ⟨r, h⟩ := hcl callIdx
    exact ⟨_, by rw [runRounds_zero_ok h]⟩
  | succ n ih =>
    intro callIdx messages
    obtain ⟨r, h⟩ := hcl callIdx
    by_cases hs : r.stop_reason = "tool_use"
    · cases tm with
      | none => exact ⟨_, by rw [runRounds_succ_nomgr h hs]⟩
      | some m =>
        obtain ⟨s, hres⟩ := ih (callIdx + 1) (messages ++ roundPair m r)
        exact ⟨s, by rw [runRounds_succ_tools h hs]; exact hres⟩
    · exact ⟨_, by rw [runRounds_succ_done h hs]⟩

theorem roundPairs_length (m : ToolManager) :
    ∀ rs : List Response, (roundPairs m rs).length = 2 * rs.length := by
  intro rs
  induction rs with
  | nil => rfl
  | cons r rest ih =>
    simp [roundPairs, roundPair, ih]
    omega

theorem roundPairs_get_role (m : ToolManager) :
    ∀ (rs : List Response) (i : Nat) (hi : i < (roundPairs m rs).length),
      ((roundPairs m rs).get ⟨i, hi⟩).role =
        if i % 2 = 0 then "assistant" else "user" := by
  intro rs
  induction rs with
  | nil => intro i hi; simp [roundPairs] at hi
  | cons r rest ih =>
    intro i hi
    match i with
    | 0 => rfl
    | 1 => rfl
    | i + 2 =>
      have hi' : i < (roundPairs m rest).length := by
        simpa [roundPairs, roundPair] using hi
      have : ((roundPairs m (r :: rest)).get ⟨i + 2, hi⟩) =
          ((roundPairs m rest).get ⟨i, hi'⟩) := rfl
      rw [this, ih i hi']
      have : (i + 2) % 2 = i % 2 := by omega
      rw [this]

/-- The message list of the request issued at position `k` of the log, for
any loop state: either `k = 0` and it is the entry state's list, or the
`k` preceding rounds were tool rounds on responses `rs` and it is the entry
list extended by their `roundPairs`. -/
theorem runRounds_messages_shape (client : Client) (model : String)
    (tools : Option (List ToolSchema)) (tm : Option ToolManager)
    (sys : String) :
    ∀ fuel callIdx messages k req,
      (runRounds client model tools tm sys fuel callIdx
        messages).requests.get? k = some req →
      (k = 0 ∧ req.messages = messages) ∨
      (∃ m rs, tm = some m ∧ rs.length = k ∧
        (∀ j (hj : j < rs.length),
          client (callIdx + j) = Except.ok (rs.get ⟨j, hj⟩) ∧
            (rs.get ⟨j, hj⟩).stop_reason = "tool_use") ∧
        req.messages = messages ++ roundPairs m rs) := by
  intro fuel
  induction fuel with
  | zero =>
    intro callIdx messages k req hget
    left
    cases h : client callIdx with
    | error e =>
      rw [runRounds_zero_err h] at hget
      match k with
      | 0 =>
        simp at hget
        simp [← hget, mkFinalRequest]
      | k + 1 => simp at hget
    | ok r =>
      rw [runRounds_zero_ok h] at hget
      match k with
      | 0 =>
        simp at hget
        simp [← hget, mkFinalRequest]
      | k + 1 => simp at hget
  | succ n ih =>
    intro callIdx messages k req hget
    have hloopmsgs : (mkLoopRequest model messages sys tools).messages =
        messages := by
      unfold mkLoopRequest; split <;> rfl
    cases h : client callIdx with
    | error e =>
      rw [runRounds_succ_err h] at hget
      match k with
      | 0 => simp at hget; exact Or.inl ⟨rfl, by rw [← hget]; exact hloopmsgs⟩
      | k + 1 => simp at hget
    | ok r =>
      by_cases hs : r.stop_reason = "tool_use"
      · cases tm with
        | none =>
          rw [runRounds_succ_nomgr h hs] at hget
          match k with
          | 0 =>
            simp at hget
            exact Or.inl ⟨rfl, by rw [← hget]; exact hloopmsgs⟩
          | k + 1 => simp at hget
        | some m =>
          rw [runRounds_succ_tools h hs] at hget
          match k with
          | 0 =>
            simp at hget
            exact Or.inl ⟨rfl, by rw [← hget]; exact hloopmsgs⟩
          | k + 1 =>
            simp only [List.get?_cons_succ] at hget
            rcases ih (callIdx + 1) (messages ++ roundPair m r) k req hget
              with ⟨hk0, hmsgs⟩ | ⟨m', rs', hm', hlen', hresp', hmsgs'⟩
            · right
              refine ⟨m, [r], rfl, by simp [hk0], ?_, ?_⟩
              · intro j hj
                match j with
                | 0 => simpa [hs] using h
              · rw [hmsgs]
                simp [roundPairs]
            · right
              have hm : m = m' := Option.some.inj hm'
              subst hm
              refine ⟨m, r :: rs', rfl, by simp [hlen'], ?_, ?_⟩
              · intro j hj
                match j with
                | 0 => simpa [hs] using h
                | j + 1 =>
                  have hj' : j < rs'.length := by
                    simpa using Nat.lt_of_succ_lt_succ hj
                  have := hresp' j hj'
                  constructor
                  · have harith : callIdx + (j + 1) = callIdx + 1 + j := by
                      omega
                    rw [harith]
                    exact (this).1
                  · exact (this).2
              · rw [hmsgs']
                simp [roundPairs, List.append_assoc]
      · rw [runRounds_succ_done h hs] at hget
        match k with
        | 0 =>
          simp at hget
          exact Or.inl ⟨rfl, by rw [← hget]; exact hloopmsgs⟩
        | k + 1 => simp at hget

/-! ### Lemmas on `_execute_tools_for_round` and `_extract_text_content` -/

theorem executeToolsList_map_id (m : ToolManager) :
    ∀ blocks : List ContentBlock,
      (executeToolsList m blocks).map ToolResult.tool_use_id =
        blocks.filterMap blockToolUseId := by
  intro blocks
  induction blocks with
  | nil => rfl
  | cons b rest ih =>
    cases b with
    | text t => simpa [executeToolsList, blockToolUseId] using ih
    | toolUse id name input =>
      simp [executeToolsList, blockToolUseId, toolResultFor]
      constructor
      · cases h : m name input <;> simp
      · exact ih
    | other t => simpa [executeToolsList, blockToolUseId] using ih

theorem executeToolsList_all_type (m : ToolManager) :
    ∀ blocks : List ContentBlock,
      (executeToolsList m blocks).all
        (fun tr => tr.type == "tool_result") = true := by
  intro blocks
  induction blocks with
  | nil => rfl
  | cons b rest ih =>
    cases b with
    | text t => simpa [executeToolsList] using ih
    | toolUse id name input =>
      simp [executeToolsList, toolResultFor]
      constructor
      · cases h : m name input <;> simp
      · simpa using ih
    | other t => simpa [executeToolsList] using ih

theorem dispatchesList_eq_filterMap :
    ∀ blocks : List ContentBlock,
      dispatchesList blocks = blocks.filterMap blockToolCall := by
  intro blocks
  induction blocks with
  | nil => rfl
  | cons b rest ih =>
    cases b with
    | text t => simpa [dispatchesList, blockToolCall] using ih
    | toolUse id name input =>
      simp [dispatchesList, blockToolCall]
      exact ih
    | other t => simpa [dispatchesList, blockToolCall] using ih

theorem executeToolsList_mem_error (m : ToolManager) :
    ∀ (blocks : List ContentBlock) (id name : String) (input : ToolInput)
      (e : String),
      ContentBlock.toolUse id name input ∈ blocks →
      m name input = Except.error e →
      (⟨"tool_result", id, "Error executing tool: " ++ e, true⟩ : ToolResult)
        ∈ executeToolsList m blocks := by
  intro blocks
  induction blocks with
  | nil => intro id name input e hmem; simp at hmem
  | cons b rest ih =>
    intro id name input e hmem herr
    rcases List.mem_cons.mp hmem with hb | hb
    · subst hb
      simp [executeToolsList, toolResultFor, herr]
    · cases b with
      | text t => simpa [executeToolsList] using ih id name input e hb herr
      | toolUse id2 name2 input2 =>
        simp [executeToolsList]
        exact Or.inr (ih id name input e hb herr)
      | other t => simpa [executeToolsList] using ih id name input e hb herr

theorem extractTextList_no_text :
    ∀ blocks : List ContentBlock,
      (∀ b ∈ blocks, b.type ≠ "text") → extractTextList blocks = "" := by
  intro blocks
  induction blocks with
  | nil => intro _; rfl
  | cons b rest ih =>
    intro hno
    cases b with
    | text t =>
      exact absurd rfl (hno (ContentBlock.text t) (List.mem_cons_self _ _))
    | toolUse id name input =>
      exact ih fun b hb => hno b (List.mem_cons_of_mem _ hb)
    | other t =>
      exact ih fun b hb => hno b (List.mem_cons_of_mem _ hb)

theorem extractTextList_first :
    ∀ (pre : List ContentBlock) (t : String) (post : List ContentBlock),
      (∀ b ∈ pre, b.type ≠ "text") →
      extractTextList (pre ++ ContentBlock.text t :: post) = t := by
  intro pre
  induction pre with
  | nil => intro t post _; rfl
  | cons b rest ih =>
    intro t post hno
    cases b with
    | text s =>
      exact absurd rfl (hno (ContentBlock.text s) (List.mem_cons_self _ _))
    | toolUse id name input =>
      exact ih t post fun b hb => hno b (List.mem_cons_of_mem _ hb)
    | other s =>
      exact ih t post fun b hb => hno b (List.mem_cons_of_mem _ hb)

/-! ### The claims -/

/-- C1: a single call to `generate_response` issues at most
`MAX_ROUNDS + 1 = 3` LLM calls for every client, tools argument and tool
manager; and when both in-loop responses have stop reason `"tool_use"` and
a tool manager is present, exactly `MAX_ROUNDS + 1` calls happen, the last
request carries no `tools` and no `tool_choice` key, and the text extracted
from the final response is returned. -/
theorem C1_call_bound_and_forced_final (client : Client)
    (model query : String) (hist : Option String)
    (tools : Option (List ToolSchema)) (tm : Option ToolManager) :
    (generate_response client model query hist tools tm).requests.length ≤
      MAX_ROUNDS + 1 ∧
    (∀ (m : ToolManager) (r0 r1 : Response),
      tm = some m →
      client 0 = Except.ok r0 → r0.stop_reason = "tool_use" →
      client 1 = Except.ok r1 → r1.stop_reason = "tool_use" →
      (generate_response client model query hist tools
          tm).requests.length = MAX_ROUNDS + 1 ∧
      (∃ req, (generate_response client model query hist tools
          tm).requests.getLast? = some req ∧
        req.tools = none ∧ req.tool_choice = none) ∧
      (∀ r2, client 2 = Except.ok r2 →
        (generate_response client model query hist tools tm).result =
          Except.ok (_extract_text_content r2))) := by
  constructor
  · exact runRounds_requests_length_le client model tools tm
      (buildSystemContent hist) MAX_ROUNDS 0 _
  · intro m r0 r1 htm h0 hs0 h1 hs1
    subst htm
    show _ ∧ _ ∧ _
    simp only [generate_response, MAX_ROUNDS]
    rw [show (2 : Nat) = 1 + 1 from rfl, runRounds_succ_tools h0 hs0]
    simp only []
    rw [show (1 : Nat) = 0 + 1 from rfl, runRounds_succ_tools h1 hs1]
    simp only []
    cases h2 : client 2 with
    | error e =>
      rw [runRounds_zero_err h2]
      refine ⟨by simp, ⟨mkFinalRequest model
        (⟨"user", MessageContent.str query⟩ ::
          (roundPair m r0 ++ roundPair m r1)) (buildSystemContent hist),
        by simp, rfl, rfl⟩, ?_⟩
      intro r2 hr2
      cases hr2
    | ok rf =>
      rw [runRounds_zero_ok h2]
      refine ⟨by simp, ⟨mkFinalRequest model
        (⟨"user", MessageContent.str query⟩ ::
          (roundPair m r0 ++ roundPair m r1)) (buildSystemContent hist),
        by simp, rfl, rfl⟩, ?_⟩
      intro r2 hr2
      injection hr2 with hr2
      rw [hr2]

/-- C3: `_execute_tools_for_round` produces exactly one `tool_result`
record per `tool_use` content block and none for blocks of other types;
the records echo the originating blocks' ids exactly and in block order,
and the dispatches are made sequentially in that same order. -/
theorem C3_one_result_per_tool_use (m : ToolManager) (r : Response) :
    (_execute_tools_for_round r m).map ToolResult.tool_use_id =
      r.content.filterMap blockToolUseId ∧
    (_execute_tools_for_round r m).length =
      (r.content.filterMap blockToolUseId).length ∧
    (_execute_tools_for_round r m).all
      (fun tr => tr.type == "tool_result") = true ∧
    dispatchesForRound r = r.content.filterMap blockToolCall := by
  refine ⟨executeToolsList_map_id m r.content, ?_, ?_, ?_⟩
  · rw [← executeToolsList_map_id m r.content]
    simp [_execute_tools_for_round]
  · exact executeToolsList_all_type m r.content
  · exact dispatchesList_eq_filterMap r.content

/-- C8: an exception raised by the LLM call itself is neither caught nor
retried: from any loop state — an in-loop round (`fuel + 1`) or the forced
final call (`fuel = 0`) — it becomes the run's outcome unchanged, with the
failing request the only one issued from that state and no tool dispatched
after it; in particular a failure on the first call is `generate_response`'s
outcome. -/
theorem C8_llm_exception_propagates :
    (∀ (client : Client) (model : String) (tools : Option (List ToolSchema))
      (tm : Option ToolManager) (sys : String) (fuel callIdx : Nat)
      (messages : List Message) (e : String),
      client callIdx = Except.error e →
      (runRounds client model tools tm sys fuel callIdx messages).result =
        Except.error e ∧
      (runRounds client model tools tm sys fuel callIdx
        messages).requests.length = 1 ∧
      (runRounds client model tools tm sys fuel callIdx
        messages).dispatches = []) ∧
    (∀ (client : Client) (model query : String) (hist : Option String)
      (tools : Option (List ToolSchema)) (tm : Option ToolManager)
      (e : String),
      client 0 = Except.error e →
      (generate_response client model query hist tools tm).result =
        Except.error e) := by
  constructor
  · intro client model tools tm sys fuel callIdx messages e h
    cases fuel with
    | zero => rw [runRounds_zero_err h]; exact ⟨rfl, rfl, rfl⟩
    | succ n => rw [runRounds_succ_err h]; exact ⟨rfl, rfl, rfl⟩
  · intro client model query hist tools tm e h
    simp only [generate_response, MAX_ROUNDS]
    rw [show (2 : Nat) = 1 + 1 from rfl, runRounds_succ_err h]

/-- C4: whenever a round's response has a stop reason other than
`"tool_use"`, the loop immediately returns that response's extracted text:
the round's request is the last one issued (no further LLM calls), no tool
is dispatched from that state on, and the extracted text is the `text` of
the first content block of type `"text"`. -/
theorem C4_non_tool_use_terminates (client : Client) (model : String)
    (tools : Option (List ToolSchema)) (tm : Option ToolManager)
    (sys : String) (fuel callIdx : Nat) (messages : List Message)
    (r : Response) (h : client callIdx = Except.ok r)
    (hs : r.stop_reason ≠ "tool_use") :
    (runRounds client model tools tm sys (fuel + 1) callIdx
      messages).result = Except.ok (_extract_text_content r) ∧
    (runRounds client model tools tm sys (fuel + 1) callIdx
      messages).requests.length = 1 ∧
    (runRounds client model tools tm sys (fuel + 1) callIdx
      messages).dispatches = [] ∧
    (∀ (pre post : List ContentBlock) (t : String),
      r.content = pre ++ ContentBlock.text t :: post →
      (∀ b ∈ pre, b.type ≠ "text") →
      _extract_text_content r = t) := by
  rw [runRounds_succ_done h hs]
  refine ⟨rfl, rfl, rfl, ?_⟩
  intro pre post t hc hno
  rw [_extract_text_content, hc]
  exact extractTextList_first pre t post hno

/-- A response whose stop reason is not `"tool_use"`: a non-text block
followed by a text block, as a concrete input for C4. -/
def wRespDone : Response :=
  ⟨"end_turn", [ContentBlock.other "thinking", ContentBlock.text "ans"]⟩

/-- A client that always answers with `wRespDone`. -/
def wClientDone : Client := fun _ => Except.ok wRespDone

/-- Witness for C4 at a concrete round: the answer is the first text
block's text, one request, no dispatches. -/
theorem C4_witness :
    (runRounds wClientDone "m" none none "sys" 1 0 []).result =
      Except.ok "ans" ∧
    (runRounds wClientDone "m" none none "sys" 1 0
      []).requests.length = 1 ∧
    (runRounds wClientDone "m" none none "sys" 1 0 []).dispatches = [] ∧
    _extract_text_content wRespDone = "ans" := by
  have h := C4_non_tool_use_terminates wClientDone "m" none none "sys" 0 0
    [] wRespDone rfl (by decide)
  exact ⟨h.1, h.2.1, h.2.2.1,
    h.2.2.2 [ContentBlock.other "thinking"] [] "ans" rfl (by decide)⟩

/-- C5: when a response requests tools (`stop_reason = "tool_use"`) but no
tool manager was supplied, the loop returns whatever text the response
carries (possibly `""`) without raising and without dispatching any
tool. -/
theorem C5_tool_use_without_manager (client : Client) (model : String)
    (tools : Option (List ToolSchema)) (sys : String) (fuel callIdx : Nat)
    (messages : List Message) (r : Response)
    (h : client callIdx = Except.ok r)
    (hs : r.stop_reason = "tool_use") :
    (runRounds client model tools none sys (fuel + 1) callIdx
      messages).result = Except.ok (_extract_text_content r) ∧
    (runRounds client model tools none sys (fuel + 1) callIdx
      messages).requests.length = 1 ∧
    (runRounds client model tools none sys (fuel + 1) callIdx
      messages).dispatches = [] := by
  rw [runRounds_succ_nomgr h hs]
  exact ⟨rfl, rfl, rfl⟩

/-- A response that requests a tool and carries no text block, as a
concrete input for C5. -/
def wRespToolOnly : Response :=
  ⟨"tool_use", [ContentBlock.toolUse "id9" "search" [("query", "x")]]⟩

/-- A client that always answers with `wRespToolOnly`. -/
def wClientToolOnly : Client := fun _ => Except.ok wRespToolOnly

/-- Witness for C5: with no tool manager, a tool-requesting response yields
its (here empty) text, one request, no dispatches. -/
theorem C5_witness :
    (runRounds wClientToolOnly "m" none none "sys" 1 0 []).result =
      Except.ok "" ∧
    (runRounds wClientToolOnly "m" none none "sys" 1 0
      []).requests.length = 1 ∧
    (runRounds wClientToolOnly "m" none none "sys" 1 0 []).dispatches =
      [] := by
  have h := C5_tool_use_without_manager wClientToolOnly "m" none "sys" 0 0
    [] wRespToolOnly rfl rfl
  exact ⟨h.1, h.2.1, h.2.2⟩

/-- C9: on a response with no content block of type `"text"`,
`_extract_text_content` totally returns `""` — and so does
`generate_response` when it takes a text-returning path on such a
response. -/
theorem C9_no_text_block_returns_empty (r : Response)
    (hno : ∀ b ∈ r.content, b.type ≠ "text") :
    _extract_text_content r = "" ∧
    (∀ (client : Client) (model query : String) (hist : Option String)
      (tools : Option (List ToolSchema)) (tm : Option ToolManager),
      client 0 = Except.ok r → r.stop_reason ≠ "tool_use" →
      (generate_response client model query hist tools tm).result =
        Except.ok "") := by
  have he : _extract_text_content r = "" :=
    extractTextList_no_text r.content hno
  refine ⟨he, ?_⟩
  intro client model query hist tools tm h hs
  simp only [generate_response, MAX_ROUNDS]
  rw [show (2 : Nat) = 1 + 1 from rfl, runRounds_succ_done h hs]
  show Except.ok (_extract_text_content r) = Except.ok ""
  rw [he]

/-- A textless response (`tool_use` block and an unknown block only), as a
concrete input for C9. -/
def wRespNoText : Response :=
  ⟨"end_turn", [ContentBlock.toolUse "i" "n" [], ContentBlock.other "x"]⟩

/-- Witness for C9: a textless response extracts to `""`, and a run ending
on it answers `""`. -/
theorem C9_witness :
    _extract_text_content wRespNoText = "" ∧
    (generate_response (fun _ => Except.ok wRespNoText) "m" "q" none none
      none).result = Except.ok "" := by
  have h := C9_no_text_block_returns_empty wRespNoText (by decide)
  exact ⟨h.1, h.2 (fun _ => Except.ok wRespNoText) "m" "q" none none none
    rfl (by decide)⟩

/-- A response requesting one tool call, for the C2 scenarios. -/
def c2RespTool : Response :=
  ⟨"tool_use", [ContentBlock.toolUse "id1" "search" []]⟩

/-- A terminal response with no content blocks at all. -/
def c2RespEmpty : Response := ⟨"end_turn", []⟩

/-- A client whose first response requests a tool and whose second is a
terminal response with no text. -/
def c2Client : Client := fun k =>
  if k = 0 then Except.ok c2RespTool else Except.ok c2RespEmpty

/-- A client whose first response requests a tool and whose second call
raises an API exception. -/
def c2ClientFail : Client := fun k =>
  if k = 0 then Except.ok c2RespTool else Except.error "api down"

/-- A tool manager whose dispatch always raises `boom`. -/
def c2BadTM : ToolManager := fun _ _ => Except.error "boom"

/-- C2 counterexample: a round's dispatch raises and is converted to the
error record as claimed, yet (a) the loop can complete with an *empty*
textual answer, and (b) when a later LLM call itself fails the loop does
not complete with a textual answer at all — refuting the claim's final
"completes with a non-empty textual answer" conjunct. -/
theorem C2_counterexample :
    c2BadTM "search" [] = Except.error "boom" ∧
    _execute_tools_for_round c2RespTool c2BadTM =
      [⟨"tool_result", "id1", "Error executing tool: boom", true⟩] ∧
    (generate_response c2Client "m" "q" none none
      (some c2BadTM)).result = Except.ok "" ∧
    (generate_response c2ClientFail "m" "q" none none
      (some c2BadTM)).result = Except.error "api down" := by
  refine ⟨rfl, ?_, rfl, rfl⟩
  show executeToolsList c2BadTM c2RespTool.content = _
  simp [c2RespTool, executeToolsList, toolResultFor, c2BadTM]

/-- C2 (amended): a tool-dispatch exception never propagates out of the
round: it becomes a `tool_result` record with the block's `tool_use_id`,
`is_error = true` and content `"Error executing tool: "` followed by the
exception message; and whenever every LLM call itself succeeds, the loop
still completes with a textual answer (possibly empty). -/
theorem C2_tool_exception_absorbed :
    (∀ (m : ToolManager) (r : Response) (id name : String)
      (input : ToolInput) (e : String),
      ContentBlock.toolUse id name input ∈ r.content →
      m name input = Except.error e →
      (⟨"tool_result", id, "Error executing tool: " ++ e, true⟩ :
        ToolResult) ∈ _execute_tools_for_round r m) ∧
    (∀ (client : Client) (model query : String) (hist : Option String)
      (tools : Option (List ToolSchema)) (tm : Option ToolManager),
      (∀ k, ∃ r, client k = Except.ok r) →
      ∃ s, (generate_response client model query hist tools tm).result =
        Except.ok s) := by
  constructor
  · intro m r id name input e hmem herr
    exact executeToolsList_mem_error m r.content id name input e hmem herr
  · intro client model query hist tools tm hcl
    exact runRounds_total client model tools tm (buildSystemContent hist)
      hcl MAX_ROUNDS 0 [⟨"user", MessageContent.str query⟩]

theorem roundPairs_get?_role (m : ToolManager) :
    ∀ (rs : List Response) (i : Nat) (msg : Message),
      (roundPairs m rs).get? i = some msg →
      msg.role = if i % 2 = 0 then "assistant" else "user" := by
  intro rs
  induction rs with
  | nil => intro i msg hm; simp [roundPairs] at hm
  | cons r rest ih =>
    intro i msg hm
    match i with
    | 0 =>
      simp [roundPairs, roundPair] at hm
      simp [← hm, Message.role]
    | 1 =>
      simp [roundPairs, roundPair] at hm
      simp [← hm, Message.role]
    | i + 2 =>
      have hm' : (roundPairs m rest).get? i = some msg := by
        simpa [roundPairs, roundPair] using hm
      rw [ih i msg hm']
      have hpar : (i + 2) % 2 = i % 2 := by omega
      rw [hpar]

/-- C6: each tool-executing round appends exactly the assistant's raw
content and then a user message with the round's tool results; hence the
message list of the k-th LLM call (0-indexed here: call `k` is preceded by
`k` tool rounds) is the initial user query followed by `k` such pairs —
`2k + 1` messages, roles alternating and beginning with user. -/
theorem C6_message_list_shape (client : Client) (model query : String)
    (hist : Option String) (tools : Option (List ToolSchema))
    (tm : Option ToolManager) (k : Nat) (req : ApiRequest)
    (hreq : (generate_response client model query hist tools
      tm).requests.get? k = some req) :
    req.messages.length = 2 * k + 1 ∧
    req.messages.head? = some ⟨"user", MessageContent.str query⟩ ∧
    (∀ i msg, req.messages.get? i = some msg →
      msg.role = if i % 2 = 0 then "user" else "assistant") ∧
    (∃ rs : List Response, rs.length = k ∧
      (∀ j (hj : j < rs.length),
        client j = Except.ok (rs.get ⟨j, hj⟩) ∧
          (rs.get ⟨j, hj⟩).stop_reason = "tool_use") ∧
      ((rs = [] ∧
        req.messages = [⟨"user", MessageContent.str query⟩]) ∨
       (∃ m, tm = some m ∧
         req.messages = ⟨"user", MessageContent.str query⟩ ::
           roundPairs m rs))) := by
  simp only [generate_response] at hreq
  rcases runRounds_messages_shape client model tools tm
      (buildSystemContent hist) MAX_ROUNDS 0
      [⟨"user", MessageContent.str query⟩] k req hreq with
    ⟨hk0, hmsg⟩ | ⟨m, rs, htm, hlen, hresp, hmsg⟩
  · subst hk0
    refine ⟨by rw [hmsg]; rfl, by rw [hmsg]; rfl, ?_,
      [], rfl, ?_, Or.inl ⟨rfl, hmsg⟩⟩
    · intro i msg hm
      rw [hmsg] at hm
      match i with
      | 0 =>
        simp at hm
        simp [← hm, Message.role]
      | i + 1 => simp at hm
    · intro j hj
      simp at hj
  · have hmsg' : req.messages =
        ⟨"user", MessageContent.str query⟩ :: roundPairs m rs := hmsg
    refine ⟨?_, by rw [hmsg']; rfl, ?_, rs, hlen, ?_,
      Or.inr ⟨m, htm, hmsg'⟩⟩
    · rw [hmsg']
      simp [roundPairs_length m rs, hlen]
    · intro i msg hm
      rw [hmsg'] at hm
      match i with
      | 0 =>
        simp at hm
        simp [← hm, Message.role]
      | i + 1 =>
        simp only [List.get?_cons_succ] at hm
        have hrole := roundPairs_get?_role m rs i msg hm
        by_cases hpar : i % 2 = 0
        · have h1 : (i + 1) % 2 ≠ 0 := by omega
          rw [if_neg h1, hrole, if_pos hpar]
        · have h1 : (i + 1) % 2 = 0 := by omega
          rw [if_pos h1, hrole, if_neg hpar]
    · intro j hj
      have := hresp j hj
      rwa [Nat.zero_add] at this

/-- The tool-requesting first response of the C6 witness run. -/
def w6RespTool : Response :=
  ⟨"tool_use", [ContentBlock.toolUse "tid" "search" [("query", "v")]]⟩

/-- The terminal second response of the C6 witness run. -/
def w6RespText : Response := ⟨"end_turn", [ContentBlock.text "ans"]⟩

/-- A client: one tool round, then a terminal text response. -/
def w6Client : Client := fun k =>
  if k = 0 then Except.ok w6RespTool else Except.ok w6RespText

/-- A tool manager whose dispatch always succeeds with `out`. -/
def w6TM : ToolManager := fun _ _ => Except.ok "out"

/-- The second request of the C6 witness run: user query, then the first
round's assistant/tool-results pair. -/
def w6Req1 : ApiRequest :=
  mkLoopRequest "m"
    (⟨"user", MessageContent.str "q"⟩ :: roundPair w6TM w6RespTool)
    SYSTEM_PROMPT none

/-- Witness for C6 at the second call (`k = 1`) of a concrete run. -/
theorem C6_witness :
    w6Req1.messages.length = 2 * 1 + 1 ∧
    w6Req1.messages.head? = some ⟨"user", MessageContent.str "q"⟩ ∧
    (∀ i msg, w6Req1.messages.get? i = some msg →
      msg.role = if i % 2 = 0 then "user" else "assistant") ∧
    (∃ rs : List Response, rs.length = 1 ∧
      (∀ j (hj : j < rs.length),
        w6Client j = Except.ok (rs.get ⟨j, hj⟩) ∧
          (rs.get ⟨j, hj⟩).stop_reason = "tool_use") ∧
      ((rs = [] ∧
        w6Req1.messages = [⟨"user", MessageContent.str "q"⟩]) ∨
       (∃ m, (some w6TM : Option ToolManager) = some m ∧
         w6Req1.messages = ⟨"user", MessageContent.str "q"⟩ ::
           roundPairs m rs))) :=
  C6_message_list_shape w6Client "m" "q" none none (some w6TM) 1 w6Req1 rfl

/-- A client that always returns the terminal text response. -/
def c7Client : Client := fun _ => Except.ok w6RespText

/-- C7 counterexample: with `conversation_history = some ""` — present but
empty — the system directive sent is the bare `SYSTEM_PROMPT`, not
`SYSTEM_PROMPT` followed by the rendered history block as the claim
demands for every present history (Python truthiness: `if
conversation_history:` treats `""` like `None`). -/
theorem C7_counterexample :
    (generate_response c7Client "m" "q" (some "") none none).requests.map
      ApiRequest.system = [SYSTEM_PROMPT] ∧
    SYSTEM_PROMPT ≠
      SYSTEM_PROMPT ++ "\n\nPrevious conversation:\n" ++ "" := by
  constructor
  · rfl
  · intro hcontra
    have hl := congrArg String.length hcontra
    rw [String.length_append, String.length_append] at hl
    have h25 : ("\n\nPrevious conversation:\n" : String).length = 25 := rfl
    have h0 : ("" : String).length = 0 := rfl
    rw [h25, h0] at hl
    omega

/-- C7 (amended): every request of a run carries the system directive
`SYSTEM_PROMPT` when `conversation_history` is absent *or empty*, and
`SYSTEM_PROMPT` followed by the rendered history block when it is present
and non-empty.  (The history argument is passed by value to the pure
embedding; the core never mutates it.) -/
theorem C7_system_directive (client : Client) (model query : String)
    (hist : Option String) (tools : Option (List ToolSchema))
    (tm : Option ToolManager) (req : ApiRequest)
    (hmem : req ∈ (generate_response client model query hist tools
      tm).requests) :
    ((hist = none ∨ hist = some "") → req.system = SYSTEM_PROMPT) ∧
    (∀ h, hist = some h → h ≠ "" →
      req.system = SYSTEM_PROMPT ++ "\n\nPrevious conversation:\n" ++
        h) := by
  have hsys : req.system = buildSystemContent hist := by
    simp only [generate_response] at hmem
    exact runRounds_system_const client model tools tm
      (buildSystemContent hist) MAX_ROUNDS 0
      [⟨"user", MessageContent.str query⟩] req hmem
  constructor
  · rintro (rfl | rfl)
    · exact hsys
    · exact hsys
  · rintro h rfl hne
    rw [hsys]
    have hemp : h.isEmpty = false := by
      rcases Bool.eq_false_or_eq_true h.isEmpty with he | he
      · exact absurd ((String.isEmpty_iff h).mp he) hne
      · exact he
    simp [buildSystemContent, strTruthy, hemp]

/-- The single request of the C7 witness run (history `"hi"`). -/
def w7Req : ApiRequest :=
  mkLoopRequest "m" [⟨"user", MessageContent.str "q"⟩]
    (SYSTEM_PROMPT ++ "\n\nPrevious conversation:\n" ++ "hi") none

/-- Witness for C7 at a concrete run with history `"hi"`. -/
theorem C7_witness :
    (((some "hi" : Option String) = none ∨
        (some "hi" : Option String) = some "") →
      w7Req.system = SYSTEM_PROMPT) ∧
    (∀ h, (some "hi" : Option String) = some h → h ≠ "" →
      w7Req.system = SYSTEM_PROMPT ++ "\n\nPrevious conversation:\n" ++
        h) :=
  C7_system_directive c7Client "m" "q" (some "hi") none none w7Req
    (List.mem_singleton.mpr rfl)

/-- C10: every LLM call of one `generate_response` invocation — the
in-loop rounds and the forced final call alike — carries one and the same
system string, the value computed once before the loop from
`SYSTEM_PROMPT` and the conversation history. -/
theorem C10_system_constant_across_calls (client : Client)
    (model query : String) (hist : Option String)
    (tools : Option (List ToolSchema)) (tm : Option ToolManager)
    (req : ApiRequest)
    (hmem : req ∈ (generate_response client model query hist tools
      tm).requests) :
    req.system = buildSystemContent hist ∧
    (∀ req2 ∈ (generate_response client model query hist tools
      tm).requests, req2.system = req.system) := by
  simp only [generate_response] at hmem
  have h1 : req.system = buildSystemContent hist :=
    runRounds_system_const client model tools tm
      (buildSystemContent hist) MAX_ROUNDS 0
      [⟨"user", MessageContent.str query⟩] req hmem
  refine ⟨h1, ?_⟩
  intro req2 hmem2
  simp only [generate_response] at hmem2
  rw [h1]
  exact runRounds_system_const client model tools tm
    (buildSystemContent hist) MAX_ROUNDS 0
    [⟨"user", MessageContent.str query⟩] req2 hmem2

/-- A client that always requests tools, driving the forced 3-call run of
the C10 witness. -/
def w10Client : Client := fun _ => Except.ok w6RespTool

/-- The forced final request of the C10 witness run. -/
def w10ReqFinal : ApiRequest :=
  mkFinalRequest "m"
    (⟨"user", MessageContent.str "q"⟩ ::
      (roundPair w6TM w6RespTool ++ roundPair w6TM w6RespTool))
    SYSTEM_PROMPT

/-- Witness for C10 at the forced final call of a concrete 3-call run. -/
theorem C10_witness :
    w10ReqFinal.system = buildSystemContent none ∧
    (∀ req2 ∈ (generate_response w10Client "m" "q" none none
      (some w6TM)).requests, req2.system = w10ReqFinal.system) :=
  C10_system_constant_across_calls w10Client "m" "q" none none (some w6TM)
    w10ReqFinal
    (show w10ReqFinal ∈
      [mkLoopRequest "m" [⟨"user", MessageContent.str "q"⟩] SYSTEM_PROMPT
        none, w6Req1, w10ReqFinal] from
      List.Mem.tail _ (List.Mem.tail _ (List.Mem.head _)))

end AIGen
